import Mathlib

/-
Verification development for the pocket-vna-two-port repository
(pkg/pocket/pocket_linux_amd64.go and pkg/rfswitch/request.go).

Modelling conventions:
- Go float64 arithmetic is embedded as exact rational (or real) arithmetic
  unless a claim hinges on rounding of the binary representation; for that
  single place the uint64-to-float64 conversion is modelled bit-faithfully
  by fl64Nat (round to nearest representable, ties to even).
- Go code that can panic (out-of-range indexing) is embedded as an
  Option-valued function, where none is the panic.
- External collaborators (the C library calls, math.Pow, json.Marshal,
  the websocket transport) are passed in as parameters or outcomes, since
  their implementations live outside this repository.
-/

/-- Bit length with explicit fuel (64 bits suffices for Go uint64 values);
bitsAux f n counts how many halvings n needs to reach 0, capped at f. -/
def bitsAux : ℕ → ℕ → ℕ
  | 0, _ => 0
  | f + 1, n => if n = 0 then 0 else bitsAux f (n / 2) + 1

/-- Bit length of a Go uint64 value (2^(bits n - 1) ≤ n < 2^(bits n) for 0 < n < 2^64). -/
def bits (n : ℕ) : ℕ := bitsAux 64 n

/-- Model of Go's uint64-to-float64 conversion for values below 2^64:
values below 2^53 are exact; larger values are rounded to the nearest
representable double (53-bit significand), ties to even, as on amd64. -/
def fl64Nat (n : ℕ) : ℕ :=
  if n < 2 ^ 53 then n
  else
    let k := bits n - 53
    let q := n / 2 ^ k
    let r := n % 2 ^ k
    let half := 2 ^ (k - 1)
    if r < half then q * 2 ^ k
    else if half < r then (q + 1) * 2 ^ k
    else if q % 2 = 0 then q * 2 ^ k else (q + 1) * 2 ^ k

/-- Embedding of LinFrequency (pocket_linux_amd64.go:446-457) with the
float64 arithmetic idealized as exact rational arithmetic: for each
i < size it appends uint64(s + float64(i)*(e-s)/(float64(size)-1)),
where the uint64 conversion truncates (floor, for the nonnegative values
arising when end ≥ start). There is no special case for the last index. -/
def linFrequency (start end_ : ℕ) (size : ℕ) : List ℕ :=
  let s : ℚ := start
  let e : ℚ := end_
  (List.range size).map fun i : ℕ => (⌊s + (i : ℚ) * (e - s) / ((size : ℚ) - 1)⌋).toNat

/-- Model of Go's math.Round: round half away from zero. -/
def roundGo {α : Type} [LinearOrderedField α] [FloorRing α] (x : α) : ℤ :=
  if 0 ≤ x then ⌊x + 1 / 2⌋ else -⌊-x + 1 / 2⌋

/-- Embedding of LogFrequency (pocket_linux_amd64.go:459-473), parametrized
by the power function pow standing for the external math.Pow and by the
arithmetic field (exact rationals for executable uses, reals with rpow for
the semantic statement): x := e/s is hoisted, then for each i < size it
appends uint64(math.Round(s * pow x (float64(i)/(float64(size)-1)))). -/
def logFrequency {α : Type} [LinearOrderedField α] [FloorRing α]
    (pow : α → α → α) (start end_ : ℕ) (size : ℕ) : List ℕ :=
  let s : α := start
  let e : α := end_
  let x := e / s
  (List.range size).map fun i : ℕ => (roundGo (s * pow x ((i : α) / ((size : α) - 1)))).toNat

/-- LogFrequency with the external math.Pow interpreted as the real power
function (Real.rpow), the idealized semantics of the float64 computation. -/
noncomputable def logFrequencyR (start end_ : ℕ) (size : ℕ) : List ℕ :=
  logFrequency (α := ℝ) (fun a b => a ^ b) start end_ size

/-- Model of Go slice indexing with an int index: some entry when in range,
none (panic) when the index is negative or at least the length. -/
def goIndex (l : List String) (i : ℤ) : Option String :=
  if 0 ≤ i then l.get? i.toNat else none

/-- Embedding of decode (pocket_linux_amd64.go:329-343), parametrized by the
Results message table (defined elsewhere in the repository): some none is
success (nil error), some (some m) is an error with message m, and none is
a panic from indexing the table out of range. -/
def decode (code : ℤ) (results : List String) : Option (Option String) :=
  if code = 0 then some none
  else if code = 255 then (goIndex results ((results.length : ℤ) - 1)).map some
  else (goIndex results code).map some

/-- Complex value as carried across the cgo boundary (real and imaginary
float64 parts, idealized as rationals). -/
structure GoComplex where
  re : ℚ
  im : ℚ
deriving DecidableEq

/-- One measurement point as assembled by rangeQuery: the four S-parameters
and the host-side reconstructed frequency. -/
structure SParam where
  s11 : GoComplex
  s12 : GoComplex
  s21 : GoComplex
  s22 : GoComplex
  freq : ℕ
deriving DecidableEq

/-- Model of indexing one of the fixed 512-element Go transfer arrays:
none is the index-out-of-range panic. -/
def arrGet (a : Fin 512 → GoComplex) (i : ℕ) : Option GoComplex :=
  if h : i < 512 then some (a ⟨i, h⟩) else none

/-- Embedding of the result-assembly loop of rangeQuery
(pocket_linux_amd64.go:426-438): for i from the given index, n more
iterations, read S11[i], S12[i], S21[i], S22[i] from the 512-element
transfer arrays and ff[i] from the frequency list; any out-of-range
access is the panic (none). -/
def readPoints (s11a s12a s21a s22a : Fin 512 → GoComplex) (ff : List ℕ) :
    ℕ → ℕ → Option (List SParam)
  | _, 0 => some []
  | i, n + 1 => do
    let a ← arrGet s11a i
    let b ← arrGet s12a i
    let c ← arrGet s21a i
    let d ← arrGet s22a i
    let f ← ff.get? i
    let rest ← readPoints s11a s12a s21a s22a ff (i + 1) n
    some (SParam.mk a b c d f :: rest)

/-- Embedding of rangeQuery (pocket_linux_amd64.go:395-444). The C call's
outputs are the four 512-element arrays and the status code hwCode, passed
in as parameters since the C library is external; pow stands for math.Pow
and results for the Results table. The function computes the host-side
frequency list (Linear for distr = 1, else Logarithmic), assembles size
points from the fixed 512-element transfer arrays (none = Go panic for
size > 512), and returns them with the decoded status. -/
def rangeQuery (pow : ℚ → ℚ → ℚ) (s11a s12a s21a s22a : Fin 512 → GoComplex)
    (hwCode : ℤ) (results : List String) (start end_ : ℕ) (size : ℕ) (distr : ℕ) :
    Option (List SParam × Option String) := do
  let ff := if distr = 1 then linFrequency start end_ size
            else logFrequency (α := ℚ) pow start end_ size
  let ss ← readPoints s11a s12a s21a s22a ff 0 size
  let dec ← decode hwCode results
  some (ss, dec)

/-- A switch report as decoded from the wire: a kind and a value
(request.go types; the Report struct with fields Report and Is). -/
structure Report where
  report : String
  is : String
deriving DecidableEq

/-- Embedding of the receive loop of Switch.SetPort (request.go:67-102)
with explicit fuel (the fixed bound of 5 attempts). Each list entry is one
received response: some rep for a Report value, none for a non-report
message. An empty list while fuel remains is the receive timeout. An error
report fails, a report matching the requested port succeeds, anything else
is discarded and the loop continues; exhausted fuel is the final failure. -/
def setPortLoop (port : String) : ℕ → List (Option Report) → Except String Unit
  | 0, _ => .error "Too many Unexpected responses"
  | _ + 1, [] => .error "timeout receiving response"
  | n + 1, r :: rest =>
    match r with
    | some rep =>
      if rep.report = "error" then .error ("Error" ++ rep.is)
      else if rep.report = "port" ∧ rep.is = port then .ok ()
      else setPortLoop port n rest
    | none => setPortLoop port n rest

/-- Embedding of Switch.SetPort (request.go:54-103) after the request has
been sent: process the received responses with the fixed bound of 5. -/
def setPort (port : String) (responses : List (Option Report)) : Except String Unit :=
  setPortLoop port 5 responses

/-- A response neither an error report nor a report matching the requested
port: such responses are the ones SetPort discards. -/
def isUnmatched (port : String) : Option Report → Bool
  | none => true
  | some rep => !(rep.report == "error") && !(rep.report == "port" && rep.is == port)

/-- A transport frame as handed to the reconnecting websocket
(reconws.WsMessage: payload bytes and frame type). -/
structure WsMessage where
  data : List ℕ
  mtype : ℤ
deriving DecidableEq

/-- The websocket text frame type tag (websocket.TextMessage = 1). -/
def textMessage : ℤ := 1

/-- Embedding of one iteration of PipeInterfaceToWs (request.go:105-128)
for a received value s, parametrized by the external json.Marshal (which
on failure returns a nil payload together with the error). The result is
the pair (log lines emitted, frames sent to the transport): on failure the
error is logged and a frame is still sent, carrying the nil payload. -/
def pipeInterfaceToWsStep {γ : Type} (marshal : γ → Except String (List ℕ)) (s : γ) :
    List String × List WsMessage :=
  match marshal s with
  | .ok payload => ([], [WsMessage.mk payload textMessage])
  | .error e => (["Could not turn interface\x7b\x7d into JSON: " ++ e],
                 [WsMessage.mk [] textMessage])

/-- An entry on the VNA actor's result channel: either a CustomResult with
a message, or the dispatcher's result for a command. -/
inductive ActorOutput (β : Type) where
  | customResult (message : String)
  | commandResult (value : β)
deriving DecidableEq

/-- Embedding of VNA.Run (pocket_linux_amd64.go:66-90) as a trace function:
connect is the outcome of the single startup getFirstDeviceHandle call,
handle is HandleCommand, cmds are the commands received before the context
is cancelled and disconnect the outcome of releaseHandle. If the connect
fails, the actor emits one CustomResult and returns; otherwise it handles
each command in order and, on cancellation, disconnects, emitting a
CustomResult only if the disconnect fails. -/
def runActor {γ β : Type} (connect : Except String Unit) (handle : γ → ActorOutput β)
    (cmds : List γ) (disconnect : Except String Unit) : List (ActorOutput β) :=
  match connect with
  | .error e => [ActorOutput.customResult e]
  | .ok _ =>
    cmds.map handle ++
      match disconnect with
      | .ok _ => []
      | .error e => [ActorOutput.customResult e]

theorem linFrequency_length (start end_ size : ℕ) :
    (linFrequency start end_ size).length = size := by
  simp only [linFrequency]
  rw [List.length_map, List.length_range]

theorem readPoints_overflow (s11a s12a s21a s22a : Fin 512 → GoComplex) (ff : List ℕ) :
    ∀ (n i : ℕ), ff.length = i + n → 512 < i + n → i ≤ 512 →
      readPoints s11a s12a s21a s22a ff i n = none := by
  intro n
  induction n with
  | zero => intro i _ hgt hle; omega
  | succ n ih =>
    intro i hlen hgt hle
    by_cases hi : i < 512
    · have hff : ff.get? i = some (ff.get ⟨i, by omega⟩) := by
        rw [List.get?_eq_getElem?, List.getElem?_eq_getElem (by omega)]
        rfl
      have hrest : readPoints s11a s12a s21a s22a ff (i + 1) n = none := by
        apply ih <;> omega
      simp [readPoints, arrGet, hi, hff, hrest]
    · have hi512 : i = 512 := by omega
      simp [readPoints, arrGet, hi512]

theorem setPortLoop_all_unmatched (port : String) :
    ∀ (n : ℕ) (rs : List (Option Report)), rs.length = n →
      (∀ r ∈ rs, isUnmatched port r = true) →
      setPortLoop port n rs = .error "Too many Unexpected responses" := by
  intro n
  induction n with
  | zero => intro rs _ _; rfl
  | succ n ih =>
    intro rs hlen hm
    match rs with
    | [] => simp at hlen
    | r :: rest =>
      have hr := hm r (List.mem_cons_self r rest)
      have htail : ∀ x ∈ rest, isUnmatched port x = true :=
        fun x hx => hm x (List.mem_cons_of_mem r hx)
      match r with
      | none =>
        show setPortLoop port n rest = _
        exact ih rest (by simpa using hlen) htail
      | some rep =>
        have he : ¬(rep.report = "error") := by
          simp [isUnmatched] at hr; exact hr.1
        have hp : ¬(rep.report = "port" ∧ rep.is = port) := by
          simp [isUnmatched] at hr
          intro hc
          rcases hr.2 with h | h
          · exact h hc.1
          · exact h hc.2
        have hstep : setPortLoop port (n + 1) (some rep :: rest) = setPortLoop port n rest := by
          simp [setPortLoop, he, hp]
        rw [hstep]
        exact ih rest (by simpa using hlen) htail

/-- C1: the claim asserts that LinFrequency special-cases i = pointCount-1
to assign end directly so that the last element equals end exactly for
every valid input. The source has no such special case: the last point is
uint64(s + (size-1)*(e-s)/(size-1)) in float64 arithmetic. This theorem
records (a) the claim's concrete example, which does hold, (b) that under
exact arithmetic the formula's last point is end, so the code relies
purely on arithmetic exactness, and (c) that Go's uint64-to-float64
conversion already loses end = 2^53 + 1, the failing input at which the
real code (LinFrequency(0, 2^53+1, 2)) returns a last element of 2^53,
not end. -/
theorem linFrequency_no_special_case_float_loses_end :
    linFrequency 0 1000 5 = [0, 250, 500, 750, 1000] ∧
    (linFrequency 0 9007199254740993 2).getLast? = some 9007199254740993 ∧
    fl64Nat 9007199254740993 = 9007199254740992 := by
  refine ⟨?_, ?_, by decide⟩
  · simp only [linFrequency, List.range_succ, List.range_zero, List.map_append, List.map_cons,
      List.map_nil, List.nil_append, List.cons_append]
    norm_num
    decide
  · simp only [linFrequency, List.range_succ, List.range_zero, List.map_append, List.map_cons,
      List.map_nil, List.nil_append, List.cons_append]
    norm_num
    decide

/-- C2: the claim asserts the dispatcher validates pointCount ≤ 512 and
fails cleanly with an error result for larger requests. rangeQuery has no
such validation: with size = 513 the C call is handed 512-element transfer
arrays (a buffer overflow on the C side) and the Go result-assembly loop
indexes the 512-element arrays at index 512, which panics (none) instead
of returning an error result. -/
theorem rangeQuery_size_513_panics :
    rangeQuery (fun _ _ => 0) (fun _ => ⟨0, 0⟩) (fun _ => ⟨0, 0⟩) (fun _ => ⟨0, 0⟩)
      (fun _ => ⟨0, 0⟩) 0 ["ok"] 0 1000 513 1 = none := by
  have h : readPoints (fun _ => ⟨0, 0⟩) (fun _ => ⟨0, 0⟩) (fun _ => ⟨0, 0⟩) (fun _ => ⟨0, 0⟩)
      (linFrequency 0 1000 513) 0 513 = none :=
    readPoints_overflow _ _ _ _ _ 513 0 (by rw [linFrequency_length]) (by omega) (by omega)
  simp [rangeQuery, h]

/-- C3: the claim asserts that both sweep generators reject pointCount = 1
with a validation error. Neither function has any validation or error
path (their return type carries only the point list): at size = 1 both
evaluate the point formula with denominator float64(1) - 1 = 0 (0/0,
a NaN in the real code) and still return a one-element list. -/
theorem sweep_generators_accept_pointCount_one :
    (linFrequency 0 1000 1).length = 1 ∧
    ∀ pow : ℚ → ℚ → ℚ, (logFrequency (α := ℚ) pow 1 1000 1).length = 1 := by
  constructor
  · simp only [linFrequency]
    rw [List.length_map, List.length_range]
  · intro pow
    simp only [logFrequency]
    rw [List.length_map, List.length_range]

/-- C4 counterexample: the claim asserts that when serialization fails no
message is forwarded to the transport's outbound channel. In the source the
log statement is not followed by a continue, so a frame carrying the nil
payload is still sent: at a marshal that fails, the forwarded-frame list is
nonempty. -/
theorem pipeInterfaceToWs_sends_frame_on_marshal_failure :
    (pipeInterfaceToWsStep (fun _ : ℕ => Except.error "unsupported type") 0).2 =
      [WsMessage.mk [] textMessage] ∧
    (pipeInterfaceToWsStep (fun _ : ℕ => Except.error "unsupported type") 0).2 ≠ [] := by
  constructor
  · rfl
  · intro h
    simp [pipeInterfaceToWsStep] at h

/-- C4 amended: when serializing a value fails, the failure is logged and
no error is surfaced to the caller, but the value is not dropped: a frame
with an empty (nil) payload is still forwarded to the outbound channel. -/
theorem pipeInterfaceToWs_logs_and_still_forwards {γ : Type}
    (marshal : γ → Except String (List ℕ)) (s : γ) (e : String)
    (h : marshal s = Except.error e) :
    pipeInterfaceToWsStep marshal s =
      (["Could not turn interface\x7b\x7d into JSON: " ++ e],
       [WsMessage.mk [] textMessage]) := by
  simp [pipeInterfaceToWsStep, h]

theorem pipeInterfaceToWs_logs_and_still_forwards_witness :
    pipeInterfaceToWsStep (fun _ : ℕ => Except.error "boom") 0 =
      (["Could not turn interface\x7b\x7d into JSON: boom"],
       [WsMessage.mk [] textMessage]) :=
  pipeInterfaceToWs_logs_and_still_forwards (fun _ : ℕ => Except.error "boom") 0 "boom" rfl

/-- C5: decode returns success (some none) for code 0; for code 255 it
returns the last entry of the Results table whenever the table is
nonempty, regardless of its length; and for any other code that is a
valid positive index into the table it returns the entry at that index. -/
theorem decode_contract (t : List String) (h : t ≠ []) :
    decode 0 t = some none ∧
    decode 255 t = some (some (t.getLast h)) ∧
    ∀ c : ℤ, 0 < c → c < (t.length : ℤ) → c ≠ 255 → decode c t = some (t.get? c.toNat) := by
  refine ⟨rfl, ?_, ?_⟩
  · have hlen : 0 < t.length := List.length_pos.mpr h
    have hnn : (0 : ℤ) ≤ (t.length : ℤ) - 1 := by omega
    have htoNat : ((t.length : ℤ) - 1).toNat = t.length - 1 := by omega
    rw [decode, if_neg (by decide), if_pos rfl, goIndex, if_pos hnn, htoNat,
      List.get?_eq_getElem?, ← List.getLast?_eq_getElem?, List.getLast?_eq_getLast_of_ne_nil h]
    rfl
  · intro c hc hlt h255
    have hnn : (0 : ℤ) ≤ c := le_of_lt hc
    have hidx : c.toNat < t.length := by omega
    rw [decode, if_neg (by omega), if_neg h255, goIndex, if_pos hnn]
    have : ∃ m, t.get? c.toNat = some m := by
      rw [List.get?_eq_getElem?]
      exact ⟨t.get ⟨c.toNat, hidx⟩, List.getElem?_eq_getElem hidx⟩
    rcases this with ⟨m, hm⟩
    rw [hm]
    rfl

theorem decode_contract_witness :
    decode 0 ["ok", "alpha", "beta", "gamma"] = some none ∧
    decode 255 ["ok", "alpha", "beta", "gamma"] = some (some "gamma") ∧
    decode 2 ["ok", "alpha", "beta", "gamma"] = some (["ok", "alpha", "beta", "gamma"].get? 2) := by
  have h := decode_contract ["ok", "alpha", "beta", "gamma"] (by decide)
  exact ⟨h.1, h.2.1, h.2.2 2 (by decide) (by decide) (by decide)⟩

/-- C6: for every i < pointCount and start > 0, LogFrequency (with
math.Pow read as the real power function) computes
round(start * (end/start)^(i/(pointCount-1))), rounded to the nearest
integer Hz, while LinFrequency truncates (floor) its linear formula. -/
theorem logFrequency_rounds_linFrequency_truncates
    (start end_ size i : ℕ) (_hs : 0 < start) (hi : i < size) :
    (logFrequencyR start end_ size).get? i =
      some ((round ((start : ℝ) *
        (((end_ : ℝ) / (start : ℝ)) ^ ((i : ℝ) / ((size : ℝ) - 1))))).toNat) ∧
    (linFrequency start end_ size).get? i =
      some ((⌊(start : ℚ) + (i : ℚ) * ((end_ : ℚ) - (start : ℚ)) / ((size : ℚ) - 1)⌋).toNat) := by
  constructor
  · simp only [logFrequencyR, logFrequency]
    rw [List.get?_eq_getElem?, List.getElem?_map, List.getElem?_range hi]
    have hv : (0 : ℝ) ≤ (start : ℝ) *
        (((end_ : ℝ) / (start : ℝ)) ^ ((i : ℝ) / ((size : ℝ) - 1))) :=
      mul_nonneg (Nat.cast_nonneg _)
        (Real.rpow_nonneg (div_nonneg (Nat.cast_nonneg _) (Nat.cast_nonneg _)) _)
    simp only [Option.map_some']
    rw [roundGo, if_pos hv, round_eq]
  · simp only [linFrequency]
    rw [List.get?_eq_getElem?, List.getElem?_map, List.getElem?_range hi]
    rfl

theorem logFrequency_rounds_witness :
    0 < 1 ∧ 0 < 4 ∧
    ((logFrequencyR 1 1000 4).get? 0 =
      some ((round (((1 : ℕ) : ℝ) *
        ((((1000 : ℕ) : ℝ) / ((1 : ℕ) : ℝ)) ^ (((0 : ℕ) : ℝ) / (((4 : ℕ) : ℝ) - 1))))).toNat) ∧
    (linFrequency 1 1000 4).get? 0 =
      some ((⌊((1 : ℕ) : ℚ) + ((0 : ℕ) : ℚ) *
        (((1000 : ℕ) : ℚ) - ((1 : ℕ) : ℚ)) / (((4 : ℕ) : ℚ) - 1)⌋).toNat)) :=
  ⟨by decide, by decide,
    logFrequency_rounds_linFrequency_truncates 1 1000 4 0 (by decide) (by decide)⟩

/-- C7: in SetPort's receive loop, a report that is neither an error
report nor a report matching the requested port is discarded and the loop
continues with one fewer attempt; in particular with the responses
Report port open then Report port dut, SetPort dut skips the first and
succeeds on the second. -/
theorem setPort_discards_mismatched_report :
    (∀ (port : String) (n : ℕ) (rep : Report) (rest : List (Option Report)),
        rep.report ≠ "error" → ¬(rep.report = "port" ∧ rep.is = port) →
        setPortLoop port (n + 1) (some rep :: rest) = setPortLoop port n rest) ∧
    setPort "dut" [some (Report.mk "port" "open"), some (Report.mk "port" "dut")] =
      Except.ok () := by
  constructor
  · intro port n rep rest he hp
    simp [setPortLoop, he, hp]
  · rfl

theorem setPort_discards_mismatched_report_witness :
    setPortLoop "dut" 3 [some (Report.mk "port" "open")] = setPortLoop "dut" 2 [] ∧
    setPort "dut" [some (Report.mk "port" "open"), some (Report.mk "port" "dut")] =
      Except.ok () :=
  ⟨setPort_discards_mismatched_report.1 "dut" 2 (Report.mk "port" "open") []
      (by decide) (by decide),
    setPort_discards_mismatched_report.2⟩

/-- C8 counterexample: the claim quotes the failure message as
"too many unexpected responses", but the source returns
"Too many Unexpected responses"; at five consecutive mismatched reports
the returned message differs from the quoted one. -/
theorem setPort_exhaustion_message_counterexample :
    setPort "dut" (List.replicate 5 (some (Report.mk "port" "open"))) =
      Except.error "Too many Unexpected responses" ∧
    "Too many Unexpected responses" ≠ "too many unexpected responses" := by
  constructor
  · rfl
  · decide

/-- C8 amended: when SetPort receives 5 consecutive responses, none of
which is an error report or a matching report, it exhausts its fixed
retry bound and fails with the error message
"Too many Unexpected responses" (the source capitalizes the message
differently from the claim's quotation). -/
theorem setPort_exhausts_retry_bound (port : String) (rs : List (Option Report))
    (h5 : rs.length = 5) (hm : ∀ r ∈ rs, isUnmatched port r = true) :
    setPort port rs = Except.error "Too many Unexpected responses" :=
  setPortLoop_all_unmatched port 5 rs h5 hm

theorem setPort_exhausts_retry_bound_witness :
    setPort "dut" (List.replicate 5 none) = Except.error "Too many Unexpected responses" :=
  setPort_exhausts_retry_bound "dut" (List.replicate 5 none) (by decide) (by decide)

/-- C9: when the actor's single startup connect attempt fails, Run emits
exactly one CustomResult carrying the failure message and terminates:
whatever commands are pending and whatever the dispatcher would do, the
output trace is that single error result, so no command is ever
processed and the ready loop is never entered. -/
theorem runActor_connect_failure_single_error {γ β : Type} (msg : String)
    (handle : γ → ActorOutput β) (cmds : List γ) (disconnect : Except String Unit) :
    runActor (Except.error msg) handle cmds disconnect = [ActorOutput.customResult msg] :=
  rfl

/-- C10: for every status code other than 0 and 255 that is not a valid
index into the message table (negative, or at least the table length),
decode indexes the table out of bounds and panics (none) instead of
returning any error value. -/
theorem decode_panics_outside_table (c : ℤ) (t : List String)
    (h0 : c ≠ 0) (h255 : c ≠ 255) (hout : c < 0 ∨ (t.length : ℤ) ≤ c) :
    decode c t = none := by
  rw [decode, if_neg h0, if_neg h255, goIndex]
  rcases hout with hneg | hge
  · rw [if_neg (by omega)]
    rfl
  · rw [if_pos (by omega), List.get?_eq_getElem?, List.getElem?_eq_none (by omega)]
    rfl

theorem decode_panics_outside_table_witness :
    decode 7 ["ok", "alpha"] = none :=
  decode_panics_outside_table 7 ["ok", "alpha"] (by decide) (by decide) (by decide)
